import Mathlib

/-!
Shallow embedding of the electrovision repository's analysis scripts.

Sources embedded here:
* `src/backend/python/parse_dxf.py`  (layer classification, entity
  classification, connection inference, the `parse_dxf` wrapper),
* `src/backend/python/parse_pdf.py`  (`detect_electrical_components`),
* `src/data-prep/format_converter.py` (annotation-format conversion,
  class-id mapping, train/val dataset split).

Numeric drawing coordinates are modelled by `ℚ`.  The Python code compares
Euclidean distances (square roots) against `1.0`; since `Real.sqrt d < 1 ↔
d < 1` for `0 ≤ d`, the executable embedding works with squared distances
and the bridge to genuine Euclidean distance is proved via `Real.sqrt`.
-/

namespace ElectroVision

/-! ### parse_dxf.py : get_electrical_layer_info -/

/-- The keyword list of `get_electrical_layer_info` (parse_dxf.py lines 10-13). -/
def electrical_keywords : List String :=
  ["electrical", "elec", "power", "light", "switch", "outlet",
   "wire", "cable", "panel", "circuit", "breaker", "socket"]

/-- One record of the list returned by `get_electrical_layer_info`. -/
structure LayerInfo where
  name : String
  type : String
  electrical : Bool
deriving Repr, DecidableEq

/-- Python's `str.lower()`, character by character (the repository's
keywords and names are ASCII, where the two agree). -/
def lowerString (s : String) : String := String.mk (s.data.map Char.toLower)

/-- Substring occurrence on character lists: `needle` occurs as a contiguous
run of `hay`. -/
def listContains (needle : List Char) : List Char → Bool
  | [] => needle.isEmpty
  | c :: rest => needle.isPrefixOf (c :: rest) || listContains needle rest

/-- Python's substring test `keyword in haystack` on strings. -/
def containsKeyword (haystack keyword : String) : Bool :=
  listContains keyword.data haystack.data

/-- The inner `for keyword ... if keyword in layer_lower: ...; break / else:`
loop of `get_electrical_layer_info`: the first keyword of the list contained
in the lowercased layer name, if any. -/
def findKeyword : List String → String → Option String
  | [], _ => none
  | k :: rest, lower => if containsKeyword lower k then some k else findKeyword rest lower

/-- `get_electrical_layer_info` (parse_dxf.py lines 8-33): one record per
layer name, in input order. -/
def get_electrical_layer_info (layers : List String) : List LayerInfo :=
  layers.map fun layer_name =>
    match findKeyword electrical_keywords (lowerString layer_name) with
    | some keyword => { name := layer_name, type := keyword, electrical := true }
    | none => { name := layer_name, type := "general", electrical := false }

/-! ### parse_dxf.py : classify_entity_type -/

/-- A DXF entity as the script sees it through `entity.dxf`.  A field with an
`Option` type models a `hasattr` test in the source; the remaining fields
model `getattr(entity.dxf, attr, default)` with the source's default. -/
structure RawEntity where
  dxftype : String
  layer : String := "unknown"
  color : String := "bylayer"
  /-- CIRCLE radius (always present on CIRCLE entities). -/
  radius : ℚ := 0
  /-- INSERT block name; `none` models `hasattr(entity.dxf, 'name') = False`. -/
  name? : Option String := none
  /-- INSERT insertion point; `none` models the absent attribute. -/
  insert? : Option (ℚ × ℚ) := none
  /-- CIRCLE center; `none` models the absent attribute. -/
  center? : Option (ℚ × ℚ) := none
  /-- LINE start point; `none` models the absent attribute. -/
  start? : Option (ℚ × ℚ) := none
  /-- LINE end point (a LINE entity carries both endpoints). -/
  stop? : Option (ℚ × ℚ) := none
  rotation : ℚ := 0
  xscale : ℚ := 1
  yscale : ℚ := 1
  text : String := ""
  height : ℚ := 0
deriving Repr, DecidableEq

/-- The keyword checks of the INSERT branch of `classify_entity_type`
(parse_dxf.py lines 52-61), on the lowercased block name. -/
def classify_insert_block (block_name : String) : String :=
  if (["switch", "sw"]).any (containsKeyword block_name) then "switch"
  else if (["outlet", "socket", "receptacle"]).any (containsKeyword block_name) then "outlet"
  else if (["light", "lamp", "fixture"]).any (containsKeyword block_name) then "light"
  else if (["panel", "board"]).any (containsKeyword block_name) then "electrical_panel"
  else "electrical_symbol"

/-- The lowercased block name of an INSERT entity, `'unknown'` when the
name attribute is absent (parse_dxf.py line 50). -/
def insertBlockName (e : RawEntity) : String :=
  match e.name? with
  | some n => lowerString n
  | none => "unknown"

/-- `classify_entity_type` (parse_dxf.py lines 35-76). -/
def classify_entity_type (e : RawEntity) : String :=
  if e.dxftype = "CIRCLE" then
    if 1/10 ≤ e.radius ∧ e.radius ≤ 1/2 then "outlet"
    else if 1/2 < e.radius ∧ e.radius ≤ 1 then "light_fixture"
    else "general_circle"
  else if e.dxftype = "INSERT" then
    classify_insert_block (insertBlockName e)
  else if e.dxftype = "LINE" then "wire"
  else if e.dxftype = "POLYLINE" ∨ e.dxftype = "LWPOLYLINE" then "wire_path"
  else if e.dxftype = "TEXT" ∨ e.dxftype = "MTEXT" then "annotation"
  else if e.dxftype = "RECTANGLE" then "panel"
  else "general"

/-! ### parse_dxf.py : extract_entity_properties -/

/-- Squared Euclidean distance between two points; the source computes
`math.sqrt` of this quantity. -/
def sqDist (p q : ℚ × ℚ) : ℚ := (p.1 - q.1) ^ 2 + (p.2 - q.2) ^ 2

/-- The property dictionary built by `extract_entity_properties`.  `Option`
fields model keys that are only present for certain entity shapes; the
`lengthSq?` field holds the square of the `length` value the source stores
(the source stores its square root). -/
structure EntityProps where
  type : String
  layer : String
  color : String
  position? : Option (ℚ × ℚ) := none
  rotation? : Option ℚ := none
  scale? : Option (ℚ × ℚ) := none
  center? : Option (ℚ × ℚ) := none
  radius? : Option ℚ := none
  start? : Option (ℚ × ℚ) := none
  stop? : Option (ℚ × ℚ) := none
  lengthSq? : Option ℚ := none
  text? : Option String := none
  height? : Option ℚ := none
  block_name? : Option String := none
deriving Repr, DecidableEq

/-- `extract_entity_properties` (parse_dxf.py lines 78-114).  The
`elif`-chain on `hasattr insert / center / start` becomes a chain on the
`Option` fields of `RawEntity`. -/
def extract_entity_properties (e : RawEntity) : EntityProps :=
  let base : EntityProps := { type := e.dxftype, layer := e.layer, color := e.color }
  let base :=
    if e.insert?.isSome then
      { base with position? := e.insert?, rotation? := some e.rotation,
                  scale? := some (e.xscale, e.yscale) }
    else if e.center?.isSome then
      { base with center? := e.center?, radius? := some e.radius }
    else if e.start?.isSome then
      { base with start? := e.start?, stop? := e.stop?,
                  lengthSq? := e.start?.bind fun s => e.stop?.map fun t => sqDist s t }
    else base
  let base :=
    if e.dxftype = "TEXT" ∨ e.dxftype = "MTEXT" then
      { base with text? := some e.text, height? := some e.height }
    else base
  if e.dxftype = "INSERT" then
    { base with block_name? := some (e.name?.getD ("")) }
  else base

/-! ### parse_dxf.py : analyze_electrical_connections -/

/-- One processed entity of the `entities` list built by `parse_dxf`. -/
structure EntityData where
  id : ℕ
  classification : String
  properties : EntityProps
deriving Repr, DecidableEq

/-- The classifications treated as wires (parse_dxf.py line 118). -/
def wire_classes : List String := ["wire", "wire_path"]

/-- The classifications treated as components (parse_dxf.py lines 119-120). -/
def component_classes : List String := ["switch", "outlet", "light", "electrical_panel"]

/-- One record of a wire's `connected_components` list.  `distanceSq` is the
square of the `distance` the source records: the source stores
`min(start_dist, end_dist)` with both distances square roots, and the square
root is monotone, so the recorded distance is `Real.sqrt distanceSq`. -/
structure ConnComponent where
  component_id : ℕ
  component_type : String
  distanceSq : ℚ
deriving Repr, DecidableEq

/-- One record of the `connections` list. -/
structure Connection where
  wire_id : ℕ
  connected_components : List ConnComponent
deriving Repr, DecidableEq

/-- The `if 'position' in comp_props ... elif 'center' in comp_props` choice
of a component's reference point (parse_dxf.py lines 135-140). -/
def compPos (props : EntityProps) : Option (ℚ × ℚ) :=
  match props.position? with
  | some p => some p
  | none => props.center?

/-- The inner `for comp in components` loop (parse_dxf.py lines 133-158) for
a wire with endpoints `s` and `t`.  The source compares
`sqrt start_distSq < 1.0 or sqrt end_distSq < 1.0`, which is equivalent to
the squared comparison used here. -/
def connectedComponentsFor (s t : ℚ × ℚ) (components : List EntityData) :
    List ConnComponent :=
  components.filterMap fun comp =>
    match compPos comp.properties with
    | some p =>
      let start_distSq := sqDist s p
      let end_distSq := sqDist t p
      if start_distSq < 1 ∨ end_distSq < 1 then
        some { component_id := comp.id, component_type := comp.classification,
               distanceSq := min start_distSq end_distSq }
      else none
    | none => none

/-- `analyze_electrical_connections` (parse_dxf.py lines 116-166). -/
def analyze_electrical_connections (entities : List EntityData) : List Connection :=
  let wires := entities.filter fun e => wire_classes.contains e.classification
  let components := entities.filter fun e => component_classes.contains e.classification
  wires.filterMap fun wire =>
    let connected :=
      match wire.properties.start?, wire.properties.stop? with
      | some s, some t => connectedComponentsFor s t components
      | _, _ => []
    if connected.isEmpty then none
    else some { wire_id := wire.id, connected_components := connected }

/-! ### parse_dxf.py : parse_dxf -/

/-- The document data `parse_dxf` reads from `ezdxf`. -/
structure RawDoc where
  layers : List String
  modelspace : List RawEntity
  insunits : String := "unknown"
  dxfversion : String := ""
  acadver : String := "unknown"
deriving Repr

/-- The possible outcomes of the `ezdxf` calls inside `parse_dxf`'s
`try` blocks: `ioError` and `structureError` are the two exceptions caught
around `ezdxf.readfile`, `otherError msg` is any other exception raised by
the library while the document is processed, and `ok doc` is a successful
read that processes without an exception. -/
inductive ReadOutcome where
  | ioError
  | structureError
  | ok (doc : RawDoc)
  | otherError (msg : String)

/-- The result dictionary of `parse_dxf`.  An `Option` field models the
presence or absence of the corresponding key; the statistics dictionary is
modelled as an association list because the failure branch returns the empty
dictionary for it. -/
structure ParseResult where
  error? : Option String := none
  entities? : Option (List EntityData) := none
  entity_categories? : Option (List (String × List EntityData)) := none
  layer_info? : Option (List LayerInfo) := none
  connections? : Option (List Connection) := none
  statistics? : Option (List (String × ℕ)) := none
  drawing_info? : Option (String × String × String) := none
  analysis_type? : Option String := none
deriving Repr

/-- The entity loop of `parse_dxf` (lines 189-199): ids are assigned by a
counter starting at the given value. -/
def build_entities : List RawEntity → ℕ → List EntityData
  | [], _ => []
  | e :: rest, entity_id =>
    { id := entity_id, classification := classify_entity_type e,
      properties := extract_entity_properties e } :: build_entities rest (entity_id + 1)

/-- The `entity_categories` dictionary update (parse_dxf.py lines 214-219):
append the entity to the list at its classification key, creating the key at
the back on first sight (Python dictionaries preserve insertion order). -/
def addToCategory (cats : List (String × List EntityData)) (key : String)
    (e : EntityData) : List (String × List EntityData) :=
  match cats with
  | [] => [(key, [e])]
  | (k, v) :: rest =>
    if k = key then (k, v ++ [e]) :: rest else (k, v) :: addToCategory rest key e

/-- The `entity_categories` loop of `parse_dxf`. -/
def build_categories (entities : List EntityData) : List (String × List EntityData) :=
  entities.foldl (fun cats e => addToCategory cats e.classification e) []

/-- Dictionary lookup on the category association list, with the empty list
for an absent key. -/
def catLookup (cats : List (String × List EntityData)) (k : String) : List EntityData :=
  ((cats.find? fun c => c.1 == k).map (fun c => c.2)).getD []

/-- The `stats` dictionary of `parse_dxf` (lines 205-211). -/
def parse_statistics (entities : List EntityData) (layers : List String)
    (layer_info : List LayerInfo) (connections : List Connection) :
    List (String × ℕ) :=
  [("total_entities", entities.length),
   ("electrical_entities", (entities.filter fun e => e.classification != "general").length),
   ("layers", layers.length),
   ("electrical_layers", (layer_info.filter fun l => l.electrical).length),
   ("connections", connections.length)]

/-- Lookup in the statistics association list. -/
def statLookup (stats : List (String × ℕ)) (k : String) : Option ℕ :=
  (stats.find? fun c => c.1 == k).map fun c => c.2

/-- `parse_dxf` (parse_dxf.py lines 168-243) as a total function of the read
outcome: the source catches every exception, so each outcome maps to a
returned dictionary. -/
def parse_dxf : ReadOutcome → ParseResult
  | ReadOutcome.ioError => { error? := some ("Not a valid DXF file") }
  | ReadOutcome.structureError => { error? := some ("Invalid or corrupted DXF file") }
  | ReadOutcome.otherError msg =>
    { error? := some ("DXF parsing failed: " ++ msg),
      entities? := some [], entity_categories? := some [], layer_info? := some [],
      connections? := some [], statistics? := some [] }
  | ReadOutcome.ok doc =>
    let layers := doc.layers
    let layer_info := get_electrical_layer_info layers
    let entities := build_entities doc.modelspace 0
    let connections := analyze_electrical_connections entities
    let stats := parse_statistics entities layers layer_info connections
    let entity_categories := build_categories entities
    { error? := none,
      entities? := some entities,
      entity_categories? := some entity_categories,
      layer_info? := some layer_info,
      connections? := some connections,
      statistics? := some stats,
      drawing_info? := some (doc.insunits, doc.dxfversion, doc.acadver),
      analysis_type? := some ("dxf_electrical_plan") }

/-! ### parse_pdf.py : detect_electrical_components -/

/-- The keyword dictionary of `detect_electrical_components`
(parse_pdf.py lines 105-116), in insertion order. -/
def pdf_electrical_keywords : List (String × List String) :=
  [("switch", ["switch", "sw", "interruptor"]),
   ("outlet", ["outlet", "socket", "receptacle", "plug"]),
   ("light", ["light", "lamp", "fixture", "luminaire"]),
   ("breaker", ["breaker", "circuit breaker", "cb"]),
   ("panel", ["panel", "electrical panel", "distribution panel"]),
   ("wire", ["wire", "cable", "conductor"]),
   ("ground", ["ground", "earth", "gnd"]),
   ("voltage", ["220v", "110v", "240v", "120v", "volt"]),
   ("amperage", ["amp", "ampere", "a"]),
   ("power", ["kw", "kilowatt", "watt", "w"])]

/-- The greedy left-to-right scan behind Python's non-overlapping
`str.count`: at each position with no skip pending, a match counts one and
sets a skip of the needle's remaining length.  `countOccs` starts it with no
skip pending. -/
def countOccsAux (needle : List Char) : List Char → ℕ → ℕ
  | [], _ => 0
  | c :: rest, 0 =>
    if needle.isPrefixOf (c :: rest) && !needle.isEmpty then
      1 + countOccsAux needle rest (needle.length - 1)
    else
      countOccsAux needle rest 0
  | _ :: rest, skip + 1 => countOccsAux needle rest skip

/-- Python's non-overlapping `str.count` for a nonempty needle.  The source
only counts nonempty keywords; for an empty needle this scan returns `0`
where Python returns `len + 1`. -/
def countOccs (needle : List Char) (hay : List Char) : ℕ :=
  countOccsAux needle hay 0

/-- The position-collection loop of `detect_electrical_components`
(parse_pdf.py lines 129-135): `str.find` from one past each previous match
collects every occurrence position, in increasing order. -/
def findPositions (needle hay : List Char) : List ℕ :=
  (List.range hay.length).filter fun i => needle.isPrefixOf (hay.drop i)

/-- One record of the `detected_components` list. -/
structure DetectedComponent where
  type : String
  count : ℕ
  positions : List ℕ
deriving Repr, DecidableEq

/-- `detect_electrical_components` (parse_pdf.py lines 103-144). -/
def detect_electrical_components (text : String) : List DetectedComponent :=
  let text_lower := (lowerString text).data
  pdf_electrical_keywords.filterMap fun g =>
    let hits := g.2.map fun keyword =>
      if listContains keyword.data text_lower then
        (countOccs keyword.data text_lower, findPositions keyword.data text_lower)
      else (0, [])
    let count := (hits.map fun h => h.1).sum
    let positions := (hits.map fun h => h.2).flatten
    if count > 0 then
      some { type := g.1, count := count, positions := positions.take 10 }
    else none

/-! ### format_converter.py : class ids and annotation conversion -/

/-- The `class_mapping` dictionary of `get_class_id`
(format_converter.py lines 301-314). -/
def class_mapping : List (String × ℕ) :=
  [("switch", 0), ("outlet", 1), ("light", 2), ("panel", 3),
   ("wire", 4), ("junction", 5), ("breaker", 6), ("ground", 7),
   ("measurement", 8), ("motor", 9), ("transformer", 10), ("sensor", 11)]

/-- `get_class_id` (format_converter.py lines 299-316):
`class_mapping.get(class_name.lower(), 0)`. -/
def get_class_id (class_name : String) : ℕ :=
  ((class_mapping.find? fun p => p.1 == lowerString class_name).map fun p => p.2).getD 0

/-- The box normalization of `convert_voc_to_yolo`
(format_converter.py lines 277-281), as `(x_center, y_center, width, height)`. -/
def voc_box_to_yolo (img_width img_height xmin ymin xmax ymax : ℚ) :
    ℚ × ℚ × ℚ × ℚ :=
  ((xmin + xmax) / 2 / img_width, (ymin + ymax) / 2 / img_height,
   (xmax - xmin) / img_width, (ymax - ymin) / img_height)

/-- The box normalization of `convert_coco_to_yolo`
(format_converter.py lines 220-226) from a COCO `(x, y, w, h)` box. -/
def coco_box_to_yolo (img_width img_height x y w h : ℚ) : ℚ × ℚ × ℚ × ℚ :=
  ((x + w / 2) / img_width, (y + h / 2) / img_height, w / img_width, h / img_height)

/-- One `<object>` element of a Pascal VOC annotation file. -/
structure VocObject where
  name : String
  xmin : ℚ
  ymin : ℚ
  xmax : ℚ
  ymax : ℚ
deriving Repr, DecidableEq

/-- The data of one written YOLO label line `class_id x_center y_center w h`. -/
structure YoloLine where
  class_id : ℕ
  x_center : ℚ
  y_center : ℚ
  width : ℚ
  height : ℚ
deriving Repr, DecidableEq

/-- The object loop of `convert_voc_to_yolo` (format_converter.py lines
267-285): one YOLO line per VOC object. -/
def convert_voc_objects (img_width img_height : ℚ) (objs : List VocObject) :
    List YoloLine :=
  objs.map fun o =>
    let box := voc_box_to_yolo img_width img_height o.xmin o.ymin o.xmax o.ymax
    { class_id := get_class_id o.name, x_center := box.1, y_center := box.2.1,
      width := box.2.2.1, height := box.2.2.2 }

/-! ### format_converter.py / extract_from_pdf.py : prepare_training_dataset -/

/-- `int(len(processed_images) * train_split)`
(format_converter.py line 359): for the nonnegative ratios used, Python's
truncating `int` is the floor. -/
def split_index (n : ℕ) (train_split : ℚ) : ℕ :=
  ((n : ℚ) * train_split).floor.toNat

/-- The train/validation partition of `prepare_training_dataset`
(format_converter.py lines 358-362), applied to the already-shuffled list:
the first `split_index` images train, the rest validate. -/
def train_val_split {α : Type} (processed_images : List α) (train_split : ℚ) :
    List α × List α :=
  let idx := split_index processed_images.length train_split
  (processed_images.take idx, processed_images.drop idx)

/-- A processed image file: its file name and its stem (name without the
extension), as `pathlib` exposes them. -/
structure ImageFile where
  name : String
  stem : String
deriving Repr, DecidableEq

/-- The copy loop of `prepare_training_dataset` (format_converter.py lines
364-381): each image is copied to `<split>/images/<name>` and an empty label
file `<split>/labels/<stem>.txt` is touched. -/
def place_images (imgs : List ImageFile) (split_dir : String) :
    List (String × String) :=
  imgs.map fun img =>
    (split_dir ++ "/images/" ++ img.name, split_dir ++ "/labels/" ++ img.stem ++ ".txt")

/-- `prepare_training_dataset` (format_converter.py lines 349-383) on the
shuffled image list: the pairs of copied-image path and created label path,
for the train and the validation split. -/
def prepare_training_dataset (processed_images : List ImageFile) (train_split : ℚ) :
    List (String × String) × List (String × String) :=
  let split := train_val_split processed_images train_split
  (place_images split.1 ("dataset/train"), place_images split.2 ("dataset/val"))

/-! ## Helper lemmas -/

theorem findKeyword_eq_find? (kws : List String) (lower : String) :
    findKeyword kws lower = kws.find? fun k => containsKeyword lower k := by
  induction kws with
  | nil => rfl
  | cons k rest ih =>
    cases h : containsKeyword lower k <;> simp [findKeyword, List.find?, h, ih]

/-- The keyword groups the INSERT branch of `classify_entity_type` checks, in
source order, each paired with the category it yields. -/
def insert_keyword_groups : List (String × List String) :=
  [("switch", ["switch", "sw"]),
   ("outlet", ["outlet", "socket", "receptacle"]),
   ("light", ["light", "lamp", "fixture"]),
   ("electrical_panel", ["panel", "board"])]

/-- The fixed finite set of categories `classify_entity_type` can return. -/
def classification_categories : List String :=
  ["outlet", "light_fixture", "general_circle", "switch", "light",
   "electrical_panel", "electrical_symbol", "wire", "wire_path",
   "annotation", "panel", "general"]

theorem classify_insert_block_eq_find? (bn : String) :
    classify_insert_block bn =
    ((insert_keyword_groups.find? fun g => g.2.any (containsKeyword bn)).map
      Prod.fst).getD ("electrical_symbol") := by
  unfold classify_insert_block
  cases h1 : (["switch", "sw"]).any (containsKeyword bn) <;>
    cases h2 : (["outlet", "socket", "receptacle"]).any (containsKeyword bn) <;>
      cases h3 : (["light", "lamp", "fixture"]).any (containsKeyword bn) <;>
        cases h4 : (["panel", "board"]).any (containsKeyword bn) <;>
          simp [insert_keyword_groups, List.find?, h1, h2, h3, h4]

theorem classify_insert_block_mem (bn : String) :
    classify_insert_block bn ∈ classification_categories := by
  unfold classify_insert_block
  split_ifs <;> simp [classification_categories]

/-! ## Claim theorems -/

/-- C6: `get_electrical_layer_info` returns exactly one record per input
layer name, in input order: a record has `electrical = true` and `type`
equal to the first keyword of the fixed list contained case-insensitively in
the layer name, or `electrical = false` and type `"general"` when no
keyword is contained. -/
theorem get_electrical_layer_info_spec (layers : List String) :
    (get_electrical_layer_info layers).length = layers.length ∧
    ∀ i : ℕ, (get_electrical_layer_info layers)[i]? =
      (layers[i]?).map fun layer_name =>
        match electrical_keywords.find?
            (fun k => containsKeyword (lowerString layer_name) k) with
        | some keyword => { name := layer_name, type := keyword, electrical := true }
        | none => { name := layer_name, type := "general", electrical := false } := by
  constructor
  · simp [get_electrical_layer_info]
  · intro i
    simp only [get_electrical_layer_info, List.getElem?_map, findKeyword_eq_find?]

/-- C10: `get_class_id` is total and defaults to `0` — the id of
`"switch"` — so a class name whose lowercased form is not a key of the
mapping is silently assigned class 0. -/
theorem get_class_id_default :
    (∀ class_name : String,
      lowerString class_name ∉ class_mapping.map Prod.fst → get_class_id class_name = 0) ∧
    get_class_id ("switch") = 0 := by
  refine ⟨fun class_name h => ?_, by decide⟩
  have hnone : class_mapping.find? (fun p => p.1 == lowerString class_name) = none := by
    rw [List.find?_eq_none]
    intro p hp hbeq
    exact h (List.mem_map.mpr ⟨p, hp, beq_iff_eq.mp hbeq⟩)
  simp [get_class_id, hnone]

/-- Witness for C10 at the unknown class name `"Transistor"`. -/
theorem get_class_id_default_witness :
    lowerString ("Transistor") ∉ class_mapping.map Prod.fst ∧ get_class_id ("Transistor") = 0 :=
  ⟨by decide, get_class_id_default.1 ("Transistor") (by decide)⟩

/-- C2: `classify_entity_type` assigns every entity exactly one category of
a fixed finite set, determined solely by the entity: CIRCLE by radius
(`[0.1, 0.5]` outlet, `(0.5, 1.0]` light fixture, otherwise general
circle), INSERT by the first matching keyword group in its lowercased block
name (switch, outlet, light, panel, in that order, defaulting to
`electrical_symbol`), LINE wire, POLYLINE and LWPOLYLINE wire path, TEXT
and MTEXT annotation text, RECTANGLE panel, everything else general. -/
theorem classify_entity_type_spec (e : RawEntity) :
    classify_entity_type e ∈ classification_categories ∧
    (e.dxftype = "CIRCLE" →
      classify_entity_type e =
        if 1/10 ≤ e.radius ∧ e.radius ≤ 1/2 then "outlet"
        else if 1/2 < e.radius ∧ e.radius ≤ 1 then "light_fixture"
        else "general_circle") ∧
    (e.dxftype = "INSERT" →
      classify_entity_type e =
        ((insert_keyword_groups.find? fun g =>
            g.2.any (containsKeyword (insertBlockName e))).map
          Prod.fst).getD ("electrical_symbol")) ∧
    (e.dxftype = "LINE" → classify_entity_type e = "wire") ∧
    ((e.dxftype = "POLYLINE" ∨ e.dxftype = "LWPOLYLINE") →
      classify_entity_type e = "wire_path") ∧
    ((e.dxftype = "TEXT" ∨ e.dxftype = "MTEXT") →
      classify_entity_type e = "annotation") ∧
    (e.dxftype = "RECTANGLE" → classify_entity_type e = "panel") ∧
    (e.dxftype ∉ (["CIRCLE", "INSERT", "LINE", "POLYLINE", "LWPOLYLINE",
                   "TEXT", "MTEXT", "RECTANGLE"] : List String) →
      classify_entity_type e = "general") := by
  refine ⟨?_, fun h => ?_, fun h => ?_, fun h => ?_, fun h => ?_, fun h => ?_,
    fun h => ?_, fun h => ?_⟩
  · unfold classify_entity_type
    split_ifs <;>
      first
      | exact classify_insert_block_mem _
      | simp [classification_categories]
  · simp [classify_entity_type, h]
  · rw [show classify_entity_type e = classify_insert_block (insertBlockName e) by
      simp [classify_entity_type, h]]
    exact classify_insert_block_eq_find? (insertBlockName e)
  · simp [classify_entity_type, h]
  · rcases h with h | h <;> simp [classify_entity_type, h]
  · rcases h with h | h <;> simp [classify_entity_type, h]
  · simp [classify_entity_type, h]
  · simp only [List.mem_cons, List.not_mem_nil, or_false, not_or] at h
    obtain ⟨h1, h2, h3, h4, h5, h6, h7, h8⟩ := h
    simp [classify_entity_type, h1, h2, h3, h4, h5, h6, h7, h8]

/-- Witness for C2 at a LINE entity and a CIRCLE entity. -/
theorem classify_entity_type_spec_witness :
    classify_entity_type { dxftype := "LINE" } = "wire" ∧
    classify_entity_type { dxftype := "CIRCLE", radius := 3/10 } =
      (if (1:ℚ)/10 ≤ 3/10 ∧ (3:ℚ)/10 ≤ 1/2 then "outlet"
       else if (1:ℚ)/2 < 3/10 ∧ (3:ℚ)/10 ≤ 1 then "light_fixture"
       else "general_circle") :=
  ⟨(classify_entity_type_spec { dxftype := "LINE" }).2.2.2.1 rfl,
   (classify_entity_type_spec { dxftype := "CIRCLE", radius := 3/10 }).2.1 rfl⟩

/-- C8: the four analysis heuristics are stateless and deterministic — pure
functions of their arguments, so equal inputs give equal outputs. -/
theorem analysis_heuristics_deterministic :
    (∀ e₁ e₂ : RawEntity, e₁ = e₂ →
      classify_entity_type e₁ = classify_entity_type e₂) ∧
    (∀ l₁ l₂ : List String, l₁ = l₂ →
      get_electrical_layer_info l₁ = get_electrical_layer_info l₂) ∧
    (∀ a₁ a₂ : List EntityData, a₁ = a₂ →
      analyze_electrical_connections a₁ = analyze_electrical_connections a₂) ∧
    (∀ t₁ t₂ : String, t₁ = t₂ →
      detect_electrical_components t₁ = detect_electrical_components t₂) :=
  ⟨fun _ _ h => congrArg _ h, fun _ _ h => congrArg _ h,
   fun _ _ h => congrArg _ h, fun _ _ h => congrArg _ h⟩

/-- Witness for C8 at concrete inputs. -/
theorem analysis_heuristics_deterministic_witness :
    classify_entity_type { dxftype := "LINE" } = classify_entity_type { dxftype := "LINE" } ∧
    detect_electrical_components ("sw") = detect_electrical_components ("sw") :=
  ⟨analysis_heuristics_deterministic.1 { dxftype := "LINE" } { dxftype := "LINE" } rfl,
   analysis_heuristics_deterministic.2.2.2 ("sw") ("sw") rfl⟩

/-- C3: `parse_dxf` is total over the read outcomes (the source catches
every exception): the I/O error and the structure error return dictionaries
holding exactly the stated error strings, any other exception returns the
`DXF parsing failed:` message together with empty collections, and the
result carries an error field iff parsing failed. -/
theorem parse_dxf_error_contract :
    parse_dxf ReadOutcome.ioError = { error? := some ("Not a valid DXF file") } ∧
    parse_dxf ReadOutcome.structureError =
      { error? := some ("Invalid or corrupted DXF file") } ∧
    (∀ msg : String, parse_dxf (ReadOutcome.otherError msg) =
      { error? := some ("DXF parsing failed: " ++ msg),
        entities? := some [], entity_categories? := some [], layer_info? := some [],
        connections? := some [], statistics? := some [] }) ∧
    (∀ o : ReadOutcome,
      (parse_dxf o).error?.isSome ↔ ∀ doc : RawDoc, o ≠ ReadOutcome.ok doc) := by
  refine ⟨rfl, rfl, fun msg => rfl, fun o => ?_⟩
  cases o with
  | ok doc =>
    simp only [parse_dxf, Option.isSome_none, Bool.false_eq_true, false_iff, not_forall,
      not_not]
    exact ⟨doc, rfl⟩
  | ioError => simp [parse_dxf]
  | structureError => simp [parse_dxf]
  | otherError msg => simp [parse_dxf]

/-- C5: a VOC bounding box with `0 ≤ xmin ≤ xmax ≤ W` and
`0 ≤ ymin ≤ ymax ≤ H` yields exactly one YOLO label line per object, with
the stated center/size formulas, all four normalized values in `[0, 1]`;
the COCO conversion computes the same normalization from an `(x, y, w, h)`
box. -/
theorem yolo_normalization_spec
    (W H xmin ymin xmax ymax : ℚ)
    (hW : 0 < W) (hH : 0 < H)
    (hx0 : 0 ≤ xmin) (hx : xmin ≤ xmax) (hxW : xmax ≤ W)
    (hy0 : 0 ≤ ymin) (hy : ymin ≤ ymax) (hyH : ymax ≤ H) :
    (∀ objs : List VocObject, (convert_voc_objects W H objs).length = objs.length) ∧
    voc_box_to_yolo W H xmin ymin xmax ymax =
      ((xmin + xmax) / 2 / W, (ymin + ymax) / 2 / H,
       (xmax - xmin) / W, (ymax - ymin) / H) ∧
    (0 ≤ (voc_box_to_yolo W H xmin ymin xmax ymax).1 ∧
      (voc_box_to_yolo W H xmin ymin xmax ymax).1 ≤ 1) ∧
    (0 ≤ (voc_box_to_yolo W H xmin ymin xmax ymax).2.1 ∧
      (voc_box_to_yolo W H xmin ymin xmax ymax).2.1 ≤ 1) ∧
    (0 ≤ (voc_box_to_yolo W H xmin ymin xmax ymax).2.2.1 ∧
      (voc_box_to_yolo W H xmin ymin xmax ymax).2.2.1 ≤ 1) ∧
    (0 ≤ (voc_box_to_yolo W H xmin ymin xmax ymax).2.2.2 ∧
      (voc_box_to_yolo W H xmin ymin xmax ymax).2.2.2 ≤ 1) ∧
    (∀ x y w h : ℚ, coco_box_to_yolo W H x y w h =
      voc_box_to_yolo W H x y (x + w) (y + h)) := by
  refine ⟨fun objs => by simp [convert_voc_objects], rfl, ⟨?_, ?_⟩, ⟨?_, ?_⟩,
    ⟨?_, ?_⟩, ⟨?_, ?_⟩, fun x y w h => ?_⟩
  · exact div_nonneg (div_nonneg (by linarith) (by norm_num)) hW.le
  · simp only [voc_box_to_yolo]
    rw [div_div, div_le_one (by positivity)]
    linarith
  · exact div_nonneg (div_nonneg (by linarith) (by norm_num)) hH.le
  · simp only [voc_box_to_yolo]
    rw [div_div, div_le_one (by positivity)]
    linarith
  · exact div_nonneg (by linarith) hW.le
  · simp only [voc_box_to_yolo]
    rw [div_le_one hW]
    linarith
  · exact div_nonneg (by linarith) hH.le
  · simp only [voc_box_to_yolo]
    rw [div_le_one hH]
    linarith
  · simp only [coco_box_to_yolo, voc_box_to_yolo, Prod.mk.injEq]
    refine ⟨by ring, by ring, by ring, by ring⟩

/-- Witness for C5 at a 100 by 200 image with box (10, 20, 30, 40). -/
theorem yolo_normalization_spec_witness :
    (0:ℚ) < 100 ∧ (voc_box_to_yolo 100 200 10 20 30 40).1 ≤ 1 :=
  ⟨by norm_num,
   (yolo_normalization_spec 100 200 10 20 30 40 (by norm_num) (by norm_num)
     (by norm_num) (by norm_num) (by norm_num) (by norm_num) (by norm_num)
     (by norm_num)).2.2.1.2⟩

theorem split_index_le (n : ℕ) (t : ℚ) (ht : t ≤ 1) : split_index n t ≤ n := by
  unfold split_index
  have hbr : ∀ q : ℚ, q.floor = ⌊q⌋ := fun _ => rfl
  rw [hbr]
  have h1 : (n : ℚ) * t ≤ (n : ℚ) := by
    nlinarith [Nat.cast_nonneg (α := ℚ) n]
  have h2 : ⌊(n : ℚ) * t⌋ ≤ ⌊((n : ℚ) : ℚ)⌋ := Int.floor_le_floor h1
  have h3 : ⌊((n : ℚ) : ℚ)⌋ = (n : ℤ) := Int.floor_natCast n
  omega

/-- C7: `prepare_training_dataset` partitions the shuffled images: the
first `int(n · t)` go to the train split, the remaining `n − int(n · t)` to
the validation split, every image lands in exactly one of the two, and each
copied image gets a label file with the same stem and a `.txt` extension in
the matching labels directory. -/
theorem prepare_training_dataset_partition (imgs : List ImageFile) (t : ℚ)
    (_h0 : 0 ≤ t) (h1 : t ≤ 1) (hnd : imgs.Nodup) :
    (train_val_split imgs t).1.length = split_index imgs.length t ∧
    (train_val_split imgs t).2.length = imgs.length - split_index imgs.length t ∧
    (train_val_split imgs t).1 ++ (train_val_split imgs t).2 = imgs ∧
    (∀ img ∈ imgs,
      (img ∈ (train_val_split imgs t).1 ∧ img ∉ (train_val_split imgs t).2) ∨
      (img ∈ (train_val_split imgs t).2 ∧ img ∉ (train_val_split imgs t).1)) ∧
    (prepare_training_dataset imgs t).1 =
      place_images (train_val_split imgs t).1 ("dataset/train") ∧
    (prepare_training_dataset imgs t).2 =
      place_images (train_val_split imgs t).2 ("dataset/val") ∧
    (∀ sub : List ImageFile, ∀ dir : String, ∀ p ∈ place_images sub dir,
      ∃ img, img ∈ sub ∧
        p = (dir ++ "/images/" ++ img.name, dir ++ "/labels/" ++ img.stem ++ ".txt")) ∧
    (∀ sub : List ImageFile, ∀ dir : String,
      (place_images sub dir).length = sub.length) := by
  have hk := split_index_le imgs.length t h1
  have happ : (train_val_split imgs t).1 ++ (train_val_split imgs t).2 = imgs := by
    simp only [train_val_split]
    exact List.take_append_drop _ imgs
  refine ⟨?_, ?_, happ, ?_, rfl, rfl, ?_, ?_⟩
  · simp only [train_val_split, List.length_take]
    omega
  · simp only [train_val_split, List.length_drop]
  · intro img himg
    have hnd' : ((train_val_split imgs t).1 ++ (train_val_split imgs t).2).Nodup := by
      rw [happ]; exact hnd
    rw [List.nodup_append] at hnd'
    obtain ⟨-, -, hdisj⟩ := hnd'
    rw [← happ] at himg
    rcases List.mem_append.mp himg with h | h
    · exact Or.inl ⟨h, fun hc => hdisj h hc⟩
    · exact Or.inr ⟨h, fun hc => hdisj hc h⟩
  · intro sub dir p hp
    obtain ⟨img, hm, heq⟩ := List.mem_map.mp hp
    exact ⟨img, hm, heq.symm⟩
  · intro sub dir
    simp [place_images]

/-- Witness for C7 at a two-image list with the default split 0.8. -/
theorem prepare_training_dataset_partition_witness :
    (0:ℚ) ≤ 4/5 ∧
    (train_val_split ([⟨"a.png", "a"⟩, ⟨"b.png", "b"⟩] : List ImageFile) (4/5)).1 ++
      (train_val_split ([⟨"a.png", "a"⟩, ⟨"b.png", "b"⟩] : List ImageFile) (4/5)).2 =
      [⟨"a.png", "a"⟩, ⟨"b.png", "b"⟩] :=
  ⟨by norm_num,
   (prepare_training_dataset_partition [⟨"a.png", "a"⟩, ⟨"b.png", "b"⟩] (4/5)
     (by norm_num) (by norm_num) (by decide)).2.2.1⟩

/-- Witness for C3 at the outcome of a generic exception. -/
theorem parse_dxf_error_contract_witness :
    parse_dxf (ReadOutcome.otherError ("boom")) =
      { error? := some ("DXF parsing failed: " ++ "boom"),
        entities? := some [], entity_categories? := some [], layer_info? := some [],
        connections? := some [], statistics? := some [] } :=
  parse_dxf_error_contract.2.2.1 ("boom")

/-- Witness for C6 at a one-layer list. -/
theorem get_electrical_layer_info_spec_witness :
    (get_electrical_layer_info [("E-LIGHT")]).length = [("E-LIGHT")].length :=
  (get_electrical_layer_info_spec [("E-LIGHT")]).1

/-! ## Lemmas for the success path of parse_dxf -/

theorem build_entities_length (msp : List RawEntity) (s : ℕ) :
    (build_entities msp s).length = msp.length := by
  induction msp generalizing s with
  | nil => rfl
  | cons e rest ih => simp [build_entities, ih]

theorem build_entities_map_id (msp : List RawEntity) (s : ℕ) :
    (build_entities msp s).map EntityData.id = List.range' s msp.length := by
  induction msp generalizing s with
  | nil => rfl
  | cons e rest ih => simp [build_entities, List.range', ih]

theorem build_entities_id (msp : List RawEntity) (s i : ℕ)
    (h : i < (build_entities msp s).length) :
    ((build_entities msp s).get ⟨i, h⟩).id = s + i := by
  induction msp generalizing s i with
  | nil => simp [build_entities] at h
  | cons e rest ih =>
    cases i with
    | zero => rfl
    | succ j =>
      have h' : j < (build_entities rest (s + 1)).length := by
        have hl := h
        simp only [build_entities, List.length_cons] at hl
        omega
      rw [show s + (j + 1) = (s + 1) + j from by omega]
      exact ih (s + 1) j h'

theorem build_entities_nodup (msp : List RawEntity) (s : ℕ) :
    (build_entities msp s).Nodup :=
  List.Nodup.of_map EntityData.id
    (build_entities_map_id msp s ▸ List.nodup_range' s msp.length)

theorem catLookup_nil (k : String) : catLookup [] k = [] := rfl

theorem catLookup_cons_self (pk : String) (pv : List EntityData)
    (rest : List (String × List EntityData)) :
    catLookup ((pk, pv) :: rest) pk = pv := by
  simp [catLookup, List.find?]

theorem catLookup_cons_ne (pk : String) (pv : List EntityData)
    (rest : List (String × List EntityData)) (k : String) (h : pk ≠ k) :
    catLookup ((pk, pv) :: rest) k = catLookup rest k := by
  have hb : (pk == k) = false := beq_eq_false_iff_ne.mpr h
  simp [catLookup, List.find?, hb]

theorem catLookup_addToCategory (cats : List (String × List EntityData))
    (key k : String) (e : EntityData) :
    catLookup (addToCategory cats key e) k =
      if k = key then catLookup cats k ++ [e] else catLookup cats k := by
  induction cats with
  | nil =>
    by_cases h : k = key
    · subst h
      rw [if_pos rfl]
      show catLookup [(k, [e])] k = catLookup [] k ++ [e]
      rw [catLookup_cons_self, catLookup_nil]
      rfl
    · rw [if_neg h]
      show catLookup [(key, [e])] k = catLookup [] k
      rw [catLookup_cons_ne key [e] [] k fun hh => h hh.symm]
  | cons p rest ih =>
    obtain ⟨pk, pv⟩ := p
    by_cases h1 : pk = key
    · subst h1
      rw [show addToCategory ((pk, pv) :: rest) pk e = (pk, pv ++ [e]) :: rest from by
        simp [addToCategory]]
      by_cases h2 : k = pk
      · subst h2
        rw [catLookup_cons_self, if_pos rfl, catLookup_cons_self]
      · rw [catLookup_cons_ne pk (pv ++ [e]) rest k fun hh => h2 hh.symm, if_neg h2,
          catLookup_cons_ne pk pv rest k fun hh => h2 hh.symm]
    · rw [show addToCategory ((pk, pv) :: rest) key e = (pk, pv) :: addToCategory rest key e
        from by simp [addToCategory, h1]]
      by_cases h2 : pk = k
      · subst h2
        rw [catLookup_cons_self, if_neg fun hh => h1 hh, catLookup_cons_self]
      · rw [catLookup_cons_ne pk pv (addToCategory rest key e) k h2, ih,
          catLookup_cons_ne pk pv rest k h2]

theorem catLookup_foldl (es : List EntityData)
    (acc : List (String × List EntityData)) (k : String) :
    catLookup (es.foldl (fun cats e => addToCategory cats e.classification e) acc) k =
      catLookup acc k ++ (es.filter fun e => e.classification == k) := by
  induction es generalizing acc with
  | nil => simp
  | cons e rest ih =>
    simp only [List.foldl_cons, ih, catLookup_addToCategory, List.filter_cons]
    by_cases h : k = e.classification
    · have hb : (e.classification == k) = true := beq_iff_eq.mpr h.symm
      simp [h, hb, List.append_assoc]
    · have hb : (e.classification == k) = false :=
        beq_eq_false_iff_ne.mpr fun hh => h hh.symm
      simp [h, hb]

theorem build_categories_lookup (es : List EntityData) (k : String) :
    catLookup (build_categories es) k = es.filter fun e => e.classification == k := by
  have := catLookup_foldl es [] k
  simpa [build_categories, catLookup, List.find?] using this

/-- The entities list of a successful parse. -/
def parsedEntities (doc : RawDoc) : List EntityData :=
  (parse_dxf (ReadOutcome.ok doc)).entities?.getD []

/-- The category dictionary of a successful parse. -/
def parsedCategories (doc : RawDoc) : List (String × List EntityData) :=
  (parse_dxf (ReadOutcome.ok doc)).entity_categories?.getD []

/-- The layer records of a successful parse. -/
def parsedLayerInfo (doc : RawDoc) : List LayerInfo :=
  (parse_dxf (ReadOutcome.ok doc)).layer_info?.getD []

/-- The connections list of a successful parse. -/
def parsedConnections (doc : RawDoc) : List Connection :=
  (parse_dxf (ReadOutcome.ok doc)).connections?.getD []

/-- The statistics dictionary of a successful parse. -/
def parsedStats (doc : RawDoc) : List (String × ℕ) :=
  (parse_dxf (ReadOutcome.ok doc)).statistics?.getD []

/-- C9: every successful `parse_dxf` result is internally consistent: the
i-th entity has id i; the category dictionary groups exactly the entities
of each classification, so each entity appears exactly once, under the key
of its own classification and under no other key; and the statistics equal
the corresponding lengths and counts of the returned collections (with the
electrical count at most the total). -/
theorem parse_dxf_success_invariants (doc : RawDoc) :
    (∀ i : ℕ, ∀ h : i < (parsedEntities doc).length,
      ((parsedEntities doc).get ⟨i, h⟩).id = i) ∧
    (∀ k : String, catLookup (parsedCategories doc) k =
      (parsedEntities doc).filter fun e => e.classification == k) ∧
    (∀ e ∈ parsedEntities doc,
      (catLookup (parsedCategories doc) e.classification).count e = 1 ∧
      ∀ k : String, k ≠ e.classification → e ∉ catLookup (parsedCategories doc) k) ∧
    statLookup (parsedStats doc) ("total_entities") =
      some (parsedEntities doc).length ∧
    statLookup (parsedStats doc) ("electrical_entities") =
      some ((parsedEntities doc).filter fun e => e.classification != "general").length ∧
    ((parsedEntities doc).filter fun e => e.classification != "general").length ≤
      (parsedEntities doc).length ∧
    statLookup (parsedStats doc) ("electrical_layers") =
      some ((parsedLayerInfo doc).filter fun l => l.electrical).length ∧
    statLookup (parsedStats doc) ("connections") =
      some (parsedConnections doc).length := by
  have hent : parsedEntities doc = build_entities doc.modelspace 0 := rfl
  have hcats : parsedCategories doc = build_categories (build_entities doc.modelspace 0) := rfl
  have hnd : (parsedEntities doc).Nodup := by
    rw [hent]; exact build_entities_nodup doc.modelspace 0
  refine ⟨?_, ?_, ?_, rfl, rfl, List.length_filter_le _ _, rfl, rfl⟩
  · intro i h
    simpa using build_entities_id doc.modelspace 0 i h
  · intro k
    rw [hent, hcats]
    exact build_categories_lookup _ k
  · intro e he
    have hlook : ∀ k, catLookup (parsedCategories doc) k =
        (parsedEntities doc).filter fun x => x.classification == k := by
      intro k
      rw [hent, hcats]
      exact build_categories_lookup _ k
    constructor
    · rw [hlook]
      rw [List.count_filter (by simp)]
      exact List.count_eq_one_of_mem hnd he
    · intro k hk hmem
      rw [hlook] at hmem
      have := (List.mem_filter.mp hmem).2
      exact hk (beq_iff_eq.mp this).symm

/-- A sample document for the C9 witness. -/
def sampleDoc : RawDoc :=
  { layers := ["POWER"],
    modelspace := [{ dxftype := "LINE", start? := some (0, 0), stop? := some (1, 0) }] }

/-- Witness for C9 at `sampleDoc`. -/
theorem parse_dxf_success_invariants_witness :
    statLookup (parsedStats sampleDoc) ("total_entities") =
      some (parsedEntities sampleDoc).length ∧
    ∃ h : 0 < (parsedEntities sampleDoc).length,
      ((parsedEntities sampleDoc).get ⟨0, h⟩).id = 0 :=
  ⟨(parse_dxf_success_invariants sampleDoc).2.2.2.1,
   ⟨by decide, (parse_dxf_success_invariants sampleDoc).1 0 (by decide)⟩⟩

/-! ## The Euclidean-distance bridge and connection-analysis lemmas -/

/-- Genuine Euclidean distance between two drawing points, the quantity the
source computes with `math.sqrt`. -/
noncomputable def euclid (p q : ℚ × ℚ) : ℝ := Real.sqrt ((sqDist p q : ℚ) : ℝ)

theorem euclid_lt_one_iff (p q : ℚ × ℚ) : euclid p q < 1 ↔ sqDist p q < 1 := by
  unfold euclid
  rw [Real.sqrt_lt' one_pos, one_pow]
  exact_mod_cast Iff.rfl

theorem sqrt_cast_min_eq (a b : ℚ) :
    Real.sqrt ((min a b : ℚ) : ℝ) = min (Real.sqrt ((a : ℚ) : ℝ)) (Real.sqrt ((b : ℚ) : ℝ)) := by
  have hmono : Monotone Real.sqrt := fun x y h => Real.sqrt_le_sqrt h
  rw [Rat.cast_min, hmono.map_min]

theorem mem_connectedComponentsFor {s t : ℚ × ℚ} {components : List EntityData}
    {r : ConnComponent} :
    r ∈ connectedComponentsFor s t components ↔
    ∃ c ∈ components, ∃ p, compPos c.properties = some p ∧
      (sqDist s p < 1 ∨ sqDist t p < 1) ∧
      r = { component_id := c.id, component_type := c.classification,
            distanceSq := min (sqDist s p) (sqDist t p) } := by
  unfold connectedComponentsFor
  rw [List.mem_filterMap]
  constructor
  · rintro ⟨c, hc, hr⟩
    cases hp : compPos c.properties with
    | none => rw [hp] at hr; cases hr
    | some p =>
      rw [hp] at hr
      by_cases hd : sqDist s p < 1 ∨ sqDist t p < 1
      · simp only [if_pos hd, Option.some.injEq] at hr
        exact ⟨c, hc, p, hp, hd, hr.symm⟩
      · simp only [if_neg hd] at hr
        cases hr
  · rintro ⟨c, hc, p, hp, hd, rfl⟩
    refine ⟨c, hc, ?_⟩
    rw [hp]
    simp [hd]

theorem mem_analyze_iff {es : List EntityData} {conn : Connection} :
    conn ∈ analyze_electrical_connections es ↔
    ∃ w ∈ es, wire_classes.contains w.classification ∧
      ∃ s t, w.properties.start? = some s ∧ w.properties.stop? = some t ∧
        connectedComponentsFor s t
          (es.filter fun e => component_classes.contains e.classification) ≠ [] ∧
        conn = { wire_id := w.id,
                 connected_components :=
                   connectedComponentsFor s t
                     (es.filter fun e => component_classes.contains e.classification) } := by
  unfold analyze_electrical_connections
  rw [List.mem_filterMap]
  constructor
  · rintro ⟨w, hw, hconn⟩
    rw [List.mem_filter] at hw
    obtain ⟨hwes, hwcls⟩ := hw
    cases hs : w.properties.start? with
    | none =>
      rw [hs] at hconn
      simp at hconn
    | some s =>
      cases ht : w.properties.stop? with
      | none =>
        rw [hs, ht] at hconn
        simp at hconn
      | some t =>
        rw [hs, ht] at hconn
        by_cases hne :
          connectedComponentsFor s t
            (es.filter fun e => component_classes.contains e.classification) = []
        · simp only [List.isEmpty_iff] at hconn
          rw [if_pos hne] at hconn
          exact Option.noConfusion hconn
        · simp only [List.isEmpty_iff] at hconn
          rw [if_neg hne] at hconn
          exact ⟨w, hwes, hwcls, s, t, hs, ht, hne, (Option.some.inj hconn).symm⟩
  · rintro ⟨w, hwes, hwcls, s, t, hs, ht, hne, rfl⟩
    refine ⟨w, List.mem_filter.mpr ⟨hwes, hwcls⟩, ?_⟩
    rw [hs, ht]
    simp only [List.isEmpty_iff]
    rw [if_neg hne]

/-- The component test of the inner loop as a Boolean predicate: the
component has a reference point within one unit of a wire endpoint. -/
def nearWire (s t : ℚ × ℚ) (c : EntityData) : Bool :=
  match compPos c.properties with
  | some p => decide (sqDist s p < 1 ∨ sqDist t p < 1)
  | none => false

theorem connectedComponentsFor_map_id (s t : ℚ × ℚ) (comps : List EntityData) :
    (connectedComponentsFor s t comps).map ConnComponent.component_id =
    (comps.filter fun c => nearWire s t c).map EntityData.id := by
  induction comps with
  | nil => rfl
  | cons c rest ih =>
    rw [show connectedComponentsFor s t (c :: rest) =
        (match compPos c.properties with
         | some p =>
           if sqDist s p < 1 ∨ sqDist t p < 1 then
             ({ component_id := c.id, component_type := c.classification,
                distanceSq := min (sqDist s p) (sqDist t p) } : ConnComponent) ::
               connectedComponentsFor s t rest
           else connectedComponentsFor s t rest
         | none => connectedComponentsFor s t rest) from ?_]
    · cases hp : compPos c.properties with
      | none => simp [List.filter_cons, nearWire, hp, ih]
      | some p =>
        by_cases hd : sqDist s p < 1 ∨ sqDist t p < 1
        · simp [List.filter_cons, nearWire, hp, hd, if_pos hd, ih]
        · simp [List.filter_cons, nearWire, hp, hd, if_neg hd, ih]
    · unfold connectedComponentsFor
      rw [List.filterMap_cons]
      cases hp : compPos c.properties with
      | none => rfl
      | some p =>
        by_cases hd : sqDist s p < 1 ∨ sqDist t p < 1
        · simp [hp, hd]
        · simp [hp, hd]

theorem id_injOn_of_nodup (es : List EntityData)
    (hids : (es.map EntityData.id).Nodup)
    {a b : EntityData} (ha : a ∈ es) (hb : b ∈ es) (hab : a.id = b.id) : a = b :=
  List.inj_on_of_nodup_map hids ha hb hab

theorem wire_classes_contains_iff (cls : String) :
    wire_classes.contains cls = true ↔ cls = "wire" ∨ cls = "wire_path" := by
  simp [wire_classes]

theorem component_classes_contains_iff (cls : String) :
    component_classes.contains cls = true ↔
      cls = "switch" ∨ cls = "outlet" ∨ cls = "light" ∨ cls = "electrical_panel" := by
  simp [component_classes]

/-- C4: the connection inference is a full pairwise scan: within one wire's
list each component contributes at most one record (the component ids are
distinct whenever the entity ids are), and every record's distance is the
distance to the component's nearest wire endpoint — its square root equals
the minimum of the Euclidean distances from the component's point to the
wire's start and end. -/
theorem analyze_min_distance_spec (es : List EntityData)
    (hids : (es.map EntityData.id).Nodup) :
    ∀ conn ∈ analyze_electrical_connections es,
      (conn.connected_components.map ConnComponent.component_id).Nodup ∧
      ∀ r ∈ conn.connected_components,
        ∃ w s t c p, w ∈ es ∧ conn.wire_id = w.id ∧
          w.properties.start? = some s ∧ w.properties.stop? = some t ∧
          c ∈ es ∧ r.component_id = c.id ∧ compPos c.properties = some p ∧
          Real.sqrt ((r.distanceSq : ℚ) : ℝ) = min (euclid s p) (euclid t p) := by
  intro conn hconn
  obtain ⟨w, hwes, hwcls, s, t, hs, ht, hne, rfl⟩ := mem_analyze_iff.mp hconn
  constructor
  · rw [connectedComponentsFor_map_id]
    have hsub :
        (((es.filter fun e => component_classes.contains e.classification).filter
          fun c => nearWire s t c)).Sublist es :=
      (List.filter_sublist _).trans (List.filter_sublist _)
    exact List.Nodup.sublist (hsub.map EntityData.id) hids
  · intro r hr
    obtain ⟨c, hcmem, p, hp, hd, rfl⟩ := mem_connectedComponentsFor.mp hr
    have hcf := List.mem_filter.mp hcmem
    refine ⟨w, s, t, c, p, hwes, rfl, hs, ht, hcf.1, rfl, hp, ?_⟩
    simpa [euclid] using sqrt_cast_min_eq (sqDist s p) (sqDist t p)

/-- C1: with distinct entity ids, a wire-component connection is reported
iff the wire is classified wire or wire path with both endpoints in its
properties, the component is classified switch, outlet, light or electrical
panel with a position or center point, and that point lies strictly within
one drawing unit of some wire endpoint; and a wire appears in the
connections list at all iff some such component exists for it. -/
theorem analyze_connection_iff (es : List EntityData)
    (hids : (es.map EntityData.id).Nodup)
    (w : EntityData) (hw : w ∈ es) (c : EntityData) (hc : c ∈ es) :
    ((∃ conn ∈ analyze_electrical_connections es, conn.wire_id = w.id ∧
        ∃ r ∈ conn.connected_components, r.component_id = c.id) ↔
      ((w.classification = "wire" ∨ w.classification = "wire_path") ∧
        ∃ s t, w.properties.start? = some s ∧ w.properties.stop? = some t ∧
          (c.classification = "switch" ∨ c.classification = "outlet" ∨
            c.classification = "light" ∨ c.classification = "electrical_panel") ∧
          ∃ p, compPos c.properties = some p ∧
            (euclid s p < 1 ∨ euclid t p < 1))) ∧
    ((∃ conn ∈ analyze_electrical_connections es, conn.wire_id = w.id) ↔
      ((w.classification = "wire" ∨ w.classification = "wire_path") ∧
        ∃ s t, w.properties.start? = some s ∧ w.properties.stop? = some t ∧
          ∃ cc, cc ∈ es ∧
            (cc.classification = "switch" ∨ cc.classification = "outlet" ∨
              cc.classification = "light" ∨ cc.classification = "electrical_panel") ∧
            ∃ p, compPos cc.properties = some p ∧
              (euclid s p < 1 ∨ euclid t p < 1))) := by
  constructor
  · constructor
    · rintro ⟨conn, hconn, hwid, r, hr, hrc⟩
      obtain ⟨ww, hwwes, hwwcls, s, t, hs, ht, hne, rfl⟩ := mem_analyze_iff.mp hconn
      have hww : ww = w := id_injOn_of_nodup es hids hwwes hw hwid
      subst hww
      obtain ⟨cc, hccmem, p, hp, hd, rfl⟩ := mem_connectedComponentsFor.mp hr
      have hccf := List.mem_filter.mp hccmem
      have hccc : cc = c := id_injOn_of_nodup es hids hccf.1 hc hrc
      subst hccc
      refine ⟨(wire_classes_contains_iff _).mp hwwcls, s, t, hs, ht,
        (component_classes_contains_iff _).mp hccf.2, p, hp, ?_⟩
      rcases hd with hd | hd
      · exact Or.inl ((euclid_lt_one_iff _ _).mpr hd)
      · exact Or.inr ((euclid_lt_one_iff _ _).mpr hd)
    · rintro ⟨hwcls, s, t, hs, ht, hccls, p, hp, hd⟩
      have hd' : sqDist s p < 1 ∨ sqDist t p < 1 := by
        rcases hd with hd | hd
        · exact Or.inl ((euclid_lt_one_iff _ _).mp hd)
        · exact Or.inr ((euclid_lt_one_iff _ _).mp hd)
      have hcmem : c ∈ es.filter fun e => component_classes.contains e.classification :=
        List.mem_filter.mpr ⟨hc, (component_classes_contains_iff _).mpr hccls⟩
      have hrec :
          ({ component_id := c.id, component_type := c.classification,
             distanceSq := min (sqDist s p) (sqDist t p) } : ConnComponent) ∈
          connectedComponentsFor s t
            (es.filter fun e => component_classes.contains e.classification) :=
        mem_connectedComponentsFor.mpr ⟨c, hcmem, p, hp, hd', rfl⟩
      exact ⟨{ wire_id := w.id,
               connected_components :=
                 connectedComponentsFor s t
                   (es.filter fun e => component_classes.contains e.classification) },
        mem_analyze_iff.mpr ⟨w, hw, (wire_classes_contains_iff _).mpr hwcls, s, t, hs, ht,
          List.ne_nil_of_mem hrec, rfl⟩, rfl, _, hrec, rfl⟩
  · constructor
    · rintro ⟨conn, hconn, hwid⟩
      obtain ⟨ww, hwwes, hwwcls, s, t, hs, ht, hne, rfl⟩ := mem_analyze_iff.mp hconn
      have hww : ww = w := id_injOn_of_nodup es hids hwwes hw hwid
      subst hww
      obtain ⟨r, hr⟩ := List.exists_mem_of_ne_nil _ hne
      obtain ⟨cc, hccmem, p, hp, hd, rfl⟩ := mem_connectedComponentsFor.mp hr
      have hccf := List.mem_filter.mp hccmem
      refine ⟨(wire_classes_contains_iff _).mp hwwcls, s, t, hs, ht, cc, hccf.1,
        (component_classes_contains_iff _).mp hccf.2, p, hp, ?_⟩
      rcases hd with hd | hd
      · exact Or.inl ((euclid_lt_one_iff _ _).mpr hd)
      · exact Or.inr ((euclid_lt_one_iff _ _).mpr hd)
    · rintro ⟨hwcls, s, t, hs, ht, cc, hcces, hcccls, p, hp, hd⟩
      have hd' : sqDist s p < 1 ∨ sqDist t p < 1 := by
        rcases hd with hd | hd
        · exact Or.inl ((euclid_lt_one_iff _ _).mp hd)
        · exact Or.inr ((euclid_lt_one_iff _ _).mp hd)
      have hcmem : cc ∈ es.filter fun e => component_classes.contains e.classification :=
        List.mem_filter.mpr ⟨hcces, (component_classes_contains_iff _).mpr hcccls⟩
      have hrec :
          ({ component_id := cc.id, component_type := cc.classification,
             distanceSq := min (sqDist s p) (sqDist t p) } : ConnComponent) ∈
          connectedComponentsFor s t
            (es.filter fun e => component_classes.contains e.classification) :=
        mem_connectedComponentsFor.mpr ⟨cc, hcmem, p, hp, hd', rfl⟩
      exact ⟨{ wire_id := w.id,
               connected_components :=
                 connectedComponentsFor s t
                   (es.filter fun e => component_classes.contains e.classification) },
        mem_analyze_iff.mpr ⟨w, hw, (wire_classes_contains_iff _).mpr hwcls, s, t, hs, ht,
          List.ne_nil_of_mem hrec, rfl⟩, rfl⟩

/-- A sample wire entity for the connection witnesses. -/
def sampleWire : EntityData :=
  { id := 0, classification := "wire",
    properties := { type := "LINE", layer := "0", color := "bylayer",
                    start? := some (0, 0), stop? := some (5, 0),
                    lengthSq? := some 25 } }

/-- A sample outlet entity sitting on the wire's start point. -/
def sampleOutlet : EntityData :=
  { id := 1, classification := "outlet",
    properties := { type := "INSERT", layer := "0", color := "bylayer",
                    position? := some (0, 0) } }

/-- The sample entity list for the connection witnesses. -/
def sampleEntities : List EntityData := [sampleWire, sampleOutlet]

/-- Witness for C1: on `sampleEntities` the wire is connected to the
outlet. -/
theorem analyze_connection_iff_witness :
    ∃ conn ∈ analyze_electrical_connections sampleEntities,
      conn.wire_id = sampleWire.id ∧
      ∃ r ∈ conn.connected_components, r.component_id = sampleOutlet.id :=
  (analyze_connection_iff sampleEntities (by decide) sampleWire
    (by simp [sampleEntities]) sampleOutlet (by simp [sampleEntities])).1.mpr
    ⟨Or.inl rfl, (0, 0), (5, 0), rfl, rfl, Or.inr (Or.inl rfl), (0, 0), rfl,
     Or.inl ((euclid_lt_one_iff _ _).mpr (by norm_num [sqDist]))⟩

/-- Witness for C4 at the single connection of `sampleEntities`. -/
theorem analyze_min_distance_spec_witness :
    ((⟨0, [⟨1, "outlet", 0⟩]⟩ : Connection).connected_components.map
      ConnComponent.component_id).Nodup := by
  have heq : analyze_electrical_connections sampleEntities =
      [⟨0, [⟨1, "outlet", 0⟩]⟩] := by
    simp +decide only [analyze_electrical_connections, connectedComponentsFor, compPos,
      sqDist, wire_classes, component_classes, List.filterMap, List.filter,
      sampleEntities, sampleWire, sampleOutlet]
    norm_num
  have hmem : (⟨0, [⟨1, "outlet", 0⟩]⟩ : Connection) ∈
      analyze_electrical_connections sampleEntities := by
    rw [heq]
    exact List.mem_singleton.mpr rfl
  exact (analyze_min_distance_spec sampleEntities (by decide)
    ⟨0, [⟨1, "outlet", 0⟩]⟩ hmem).1

end ElectroVision
